import Mathlib

/-!
Verification of the YouTube batch/playlist video-processing pipeline of this
repository (src/ai_tools): `youtube_utils.py`, `youtube_tools.py`,
`youtube_agent.py` and the youtube branch of `main.py`.

Strings manipulated by the regex-based helpers are embedded as `List Char`;
Python regexes are embedded by explicit leftmost-search functions over the
character list, mirroring `re.search` semantics (leftmost position wins, and
at one position the alternatives are tried in written order).  The `\s` class
is modelled over its ASCII members; `[0-9A-Za-z_-]` is exactly ASCII.
-/

/-- The character class `[0-9A-Za-z_-]` used by the id regexes in
`youtube_utils.py`. -/
def validChar (c : Char) : Bool :=
  c.isAlphanum || c == '_' || c == '-'

/-- `matchRun n l` holds when the first `n` characters of `l` exist and all
lie in the id character class: the regex fragment `[0-9A-Za-z_-]{n}`. -/
def matchRun : Nat → List Char → Bool
  | 0, _ => true
  | _ + 1, [] => false
  | n + 1, c :: cs => validChar c && matchRun n cs

/-- The `v=` alternative of pattern `(?:v=|\/)([0-9A-Za-z_-]{11}).*` of
`extract_video_id`, tried at the current position; the trailing `.*` imposes
no constraint.  Returns the captured group on success. -/
def checkV : List Char → Option (List Char)
  | [] => none
  | a :: rest =>
    cond (a == 'v')
      (match rest with
       | [] => none
       | b :: rest2 =>
         cond (b == '=') (cond (matchRun 11 rest2) (some (rest2.take 11)) none) none)
      none

/-- The `\/` alternative of pattern `(?:v=|\/)([0-9A-Za-z_-]{11}).*` of
`extract_video_id`, tried at the current position. -/
def checkSlash : List Char → Option (List Char)
  | [] => none
  | a :: rest =>
    cond (a == '/') (cond (matchRun 11 rest) (some (rest.take 11)) none) none

/-- `re.search` of pattern 1 of `extract_video_id`: scan positions left to
right; at each position the `v=` alternative is preferred over `/`. -/
def search1 : List Char → Option (List Char)
  | [] => none
  | c :: cs => ((checkV (c :: cs)).or (checkSlash (c :: cs))).or (search1 cs)

/-- Pattern 2 `^([0-9A-Za-z_-]{11})$` of `extract_video_id` under
`re.search`: `$` matches at the end of the string or just before one
trailing newline, so the pattern accepts a bare 11-character id, optionally
followed by a single `'\n'`; the captured group is the id. -/
def bareIdMatch (url : List Char) : Option (List Char) :=
  if url.length == 11 && url.all validChar then some url
  else if url.length == 12 && (url.take 11).all validChar
      && url.getLast? == some '\n' then some (url.take 11)
  else none

/-- `extract_video_id` from `youtube_utils.py` (lines 6-18): try pattern
`(?:v=|\/)([0-9A-Za-z_-]{11}).*`, then `^([0-9A-Za-z_-]{11})$`, and fall
back to returning the input unchanged. -/
def extract_video_id (url : List Char) : List Char :=
  match search1 url with
  | some g => g
  | none =>
    match bareIdMatch url with
    | some g => g
    | none => url

theorem option_none_or {α : Type} (o : Option α) : Option.or none o = o := rfl

theorem option_some_or {α : Type} (a : α) (o : Option α) :
    Option.or (some a) o = some a := rfl

/-- `noMatchLead p rest`: scanning `p ++ rest`, no position inside `p`
matches either alternative of pattern 1. -/
def noMatchLead : List Char → List Char → Bool
  | [], _ => true
  | c :: cs, rest =>
    ((checkV (c :: (cs ++ rest))).isNone && (checkSlash (c :: (cs ++ rest))).isNone)
      && noMatchLead cs rest

theorem search1_append_of_noMatchLead (p rest : List Char)
    (h : noMatchLead p rest = true) : search1 (p ++ rest) = search1 rest := by
  induction p with
  | nil => simp
  | cons c cs ih =>
    simp only [noMatchLead, Bool.and_eq_true, Option.isNone_iff_eq_none] at h
    obtain ⟨⟨h1, h2⟩, h3⟩ := h
    rw [List.cons_append, search1, h1, h2, option_none_or, option_none_or]
    exact ih h3

theorem matchRun_append (l s : List Char) (n : Nat) (hlen : l.length = n)
    (hv : l.all validChar) : matchRun n (l ++ s) = true := by
  induction l generalizing n with
  | nil => subst hlen; simp [matchRun]
  | cons c cs ih =>
    subst hlen
    simp only [List.all_cons, Bool.and_eq_true] at hv
    simp only [List.length_cons, List.cons_append, matchRun, hv.1, Bool.true_and]
    exact ih _ rfl hv.2

theorem take_append_of_len {l s : List Char} (h : l.length = 11) :
    (l ++ s).take 11 = l := by
  rw [← h]
  exact List.take_left l s

/-- Pattern 1 succeeds at a `v=` marker followed by a valid 11-char id. -/
theorem search1_lead_vEq (lead id sfx : List Char)
    (hlead : noMatchLead lead ('v' :: '=' :: (id ++ sfx)) = true)
    (h11 : id.length = 11) (hv : id.all validChar) :
    search1 (lead ++ 'v' :: '=' :: (id ++ sfx)) = some id := by
  rw [search1_append_of_noMatchLead _ _ hlead]
  have hM : matchRun 11 (id ++ sfx) = true := matchRun_append id sfx 11 h11 hv
  have hcv : checkV ('v' :: '=' :: (id ++ sfx)) = some ((id ++ sfx).take 11) := by
    have e : checkV ('v' :: '=' :: (id ++ sfx))
        = cond (matchRun 11 (id ++ sfx)) (some ((id ++ sfx).take 11)) none := rfl
    rw [e, hM]
    rfl
  rw [search1, hcv, option_some_or, option_some_or, take_append_of_len h11]

/-- Pattern 1 succeeds at a `/` marker followed by a valid 11-char id. -/
theorem search1_lead_slash (lead id sfx : List Char)
    (hlead : noMatchLead lead ('/' :: (id ++ sfx)) = true)
    (h11 : id.length = 11) (hv : id.all validChar) :
    search1 (lead ++ '/' :: (id ++ sfx)) = some id := by
  rw [search1_append_of_noMatchLead _ _ hlead]
  have hM : matchRun 11 (id ++ sfx) = true := matchRun_append id sfx 11 h11 hv
  have hveq : checkV ('/' :: (id ++ sfx)) = none := rfl
  have hcs : checkSlash ('/' :: (id ++ sfx)) = some ((id ++ sfx).take 11) := by
    have e : checkSlash ('/' :: (id ++ sfx))
        = cond (matchRun 11 (id ++ sfx)) (some ((id ++ sfx).take 11)) none := rfl
    rw [e, hM]
    rfl
  rw [search1, hveq, option_none_or, hcs, option_some_or, take_append_of_len h11]

theorem extract_of_search1_some {u g : List Char} (h : search1 u = some g) :
    extract_video_id u = g := by
  simp [extract_video_id, h]

theorem extract_of_search1_none_of_len11 {u : List Char} (h : search1 u = none)
    (h11 : u.length = 11) (hv : u.all validChar = true) :
    extract_video_id u = u := by
  simp [extract_video_id, h, bareIdMatch, h11, hv]

theorem extract_of_search1_none_of_bare_none {u : List Char}
    (h : search1 u = none) (hb : bareIdMatch u = none) :
    extract_video_id u = u := by
  simp [extract_video_id, h, hb]

/-- A string of id-class characters contains neither a `v=` nor a `/` marker
match, so pattern 1 fails on it. -/
theorem search1_eq_none_of_all_valid (l : List Char) (hv : l.all validChar) :
    search1 l = none := by
  induction l with
  | nil => rfl
  | cons c cs ih =>
    simp only [List.all_cons, Bool.and_eq_true] at hv
    have hslash : checkSlash (c :: cs) = none := by
      have : (c == '/') = false := by
        cases hc : c == '/'
        · rfl
        · rw [eq_of_beq hc] at hv
          simp [validChar, Char.isAlphanum, Char.isAlpha, Char.isDigit,
            Char.isUpper, Char.isLower] at hv
      simp [checkSlash, this]
    have hvv : checkV (c :: cs) = none := by
      cases hc : c == 'v' with
      | false => simp [checkV, hc]
      | true =>
        cases cs with
        | nil => simp [checkV, hc]
        | cons b bs =>
          have hb : (b == '=') = false := by
            cases hb' : b == '='
            · rfl
            · have hbv := hv.2
              simp only [List.all_cons, Bool.and_eq_true] at hbv
              rw [eq_of_beq hb'] at hbv
              simp [validChar, Char.isAlphanum, Char.isAlpha, Char.isDigit,
                Char.isUpper, Char.isLower] at hbv
          simp [checkV, hc, hb]
    rw [search1, hvv, hslash, option_none_or, option_none_or]
    exact ih hv.2

/-- C8: for a valid 11-character video id embedded in any of the recognized
URL shapes (watch?v=, youtu.be/, embed/, /v/, with an arbitrary trailing
suffix), `extract_video_id` returns exactly that id; a bare 11-character id
over `[A-Za-z0-9_-]` is returned unchanged. -/
theorem C8_extract_video_id (id sfx : List Char)
    (h11 : id.length = 11) (hv : id.all validChar = true) :
    extract_video_id ("https://www.youtube.com/watch?v=".toList ++ id ++ sfx) = id ∧
    extract_video_id ("https://youtu.be/".toList ++ id ++ sfx) = id ∧
    extract_video_id ("https://www.youtube.com/embed/".toList ++ id ++ sfx) = id ∧
    extract_video_id ("https://www.youtube.com/v/".toList ++ id ++ sfx) = id ∧
    extract_video_id id = id := by
  refine ⟨?_, ?_, ?_, ?_, ?_⟩
  · refine extract_of_search1_some ?_
    have e : "https://www.youtube.com/watch?v=".toList ++ id ++ sfx
        = "https://www.youtube.com/watch?".toList ++ 'v' :: '=' :: (id ++ sfx) := by
      simp [List.append_assoc]
    rw [e]
    exact search1_lead_vEq _ id sfx rfl h11 hv
  · refine extract_of_search1_some ?_
    have e : "https://youtu.be/".toList ++ id ++ sfx
        = "https://youtu.be".toList ++ '/' :: (id ++ sfx) := by
      simp [List.append_assoc]
    rw [e]
    exact search1_lead_slash _ id sfx rfl h11 hv
  · refine extract_of_search1_some ?_
    have e : "https://www.youtube.com/embed/".toList ++ id ++ sfx
        = "https://www.youtube.com/embed".toList ++ '/' :: (id ++ sfx) := by
      simp [List.append_assoc]
    rw [e]
    exact search1_lead_slash _ id sfx rfl h11 hv
  · refine extract_of_search1_some ?_
    have e : "https://www.youtube.com/v/".toList ++ id ++ sfx
        = "https://www.youtube.com/v".toList ++ '/' :: (id ++ sfx) := by
      simp [List.append_assoc]
    rw [e]
    exact search1_lead_slash _ id sfx rfl h11 hv
  · exact extract_of_search1_none_of_len11 (search1_eq_none_of_all_valid id hv) h11 hv

/-- Witness for C8 at the concrete id dQw4w9WgXcQ with suffix `&t=30s`. -/
theorem C8_extract_video_id_witness :
    ("dQw4w9WgXcQ".toList.length = 11 ∧ "dQw4w9WgXcQ".toList.all validChar = true) ∧
    (extract_video_id ("https://www.youtube.com/watch?v=".toList
        ++ "dQw4w9WgXcQ".toList ++ "&t=30s".toList) = "dQw4w9WgXcQ".toList ∧
     extract_video_id ("https://youtu.be/".toList
        ++ "dQw4w9WgXcQ".toList ++ "&t=30s".toList) = "dQw4w9WgXcQ".toList ∧
     extract_video_id ("https://www.youtube.com/embed/".toList
        ++ "dQw4w9WgXcQ".toList ++ "&t=30s".toList) = "dQw4w9WgXcQ".toList ∧
     extract_video_id ("https://www.youtube.com/v/".toList
        ++ "dQw4w9WgXcQ".toList ++ "&t=30s".toList) = "dQw4w9WgXcQ".toList ∧
     extract_video_id "dQw4w9WgXcQ".toList = "dQw4w9WgXcQ".toList) :=
  ⟨⟨by decide, by decide⟩, C8_extract_video_id _ _ (by decide) (by decide)⟩

/-- The `video.startswith(("http", "www.youtube"))` guard of `run_youtube`. -/
def urlStartOk (video : List Char) : Bool :=
  "http".toList.isPrefixOf video || "www.youtube".toList.isPrefixOf video

/-- Input validation of `run_youtube` (youtube_agent.py lines 184-190): a
non-full URL is refused, then the extracted id must be nonempty with exactly
11 characters; on success the id is passed on. -/
def run_youtube_validate (video : List Char) : Except String (List Char) :=
  if !urlStartOk video then Except.error "Please provide a full YouTube URL"
  else
    let vid := extract_video_id video
    if vid.isEmpty || !(vid.length == 11) then Except.error "Invalid YouTube URL"
    else Except.ok vid

theorem search1_eq_none_of_checks (u : List Char)
    (h : ∀ i, i < u.length → checkV (u.drop i) = none ∧ checkSlash (u.drop i) = none) :
    search1 u = none := by
  induction u with
  | nil => rfl
  | cons c cs ih =>
    have h0 := h 0 (by simp)
    simp only [List.drop_zero] at h0
    rw [search1, h0.1, h0.2, option_none_or, option_none_or]
    refine ih fun i hi => ?_
    have := h (i + 1) (by simpa using Nat.succ_lt_succ hi)
    simpa using this

/-- C10 counterexample: on `"httpABCDEFG\n"` no `v=`/`/` marker matches and
the string is not itself a bare 11-character id, yet pattern 2 matches (`$`
accepts the position before the trailing newline), so `extract_video_id`
returns the 11-character id `"httpABCDEFG"` — not the input unchanged — and
`run_youtube`'s length check accepts it instead of rejecting. -/
theorem C10_trailing_newline_extracts_id :
    extract_video_id "httpABCDEFG\n".toList = "httpABCDEFG".toList ∧
    "httpABCDEFG\n".toList ≠ "httpABCDEFG".toList ∧
    run_youtube_validate "httpABCDEFG\n".toList
      = Except.ok "httpABCDEFG".toList := by
  refine ⟨by decide, by decide, by rfl⟩

/-- C10 (amended): if neither alternative of pattern 1 matches at any
position and pattern 2 does not match either — the string is not a bare
11-character id, nor one followed by a single trailing newline (which `$`
also accepts) — then `extract_video_id` returns the input unchanged (it can
never fail), and `run_youtube` then rejects the input exactly when the
extracted id does not have 11 characters. -/
theorem C10_extract_passthrough (u : List Char)
    (hno : ∀ i, i < u.length → checkV (u.drop i) = none ∧ checkSlash (u.drop i) = none)
    (hbare : ¬(u.length = 11 ∧ u.all validChar = true))
    (hbareNl : ¬(u.length = 12 ∧ (u.take 11).all validChar = true
      ∧ u.getLast? = some '\n')) :
    extract_video_id u = u ∧
    (urlStartOk u = true →
      ((∃ e, run_youtube_validate u = Except.error e) ↔ u.length ≠ 11)) := by
  have hbm : bareIdMatch u = none := by
    unfold bareIdMatch
    rw [if_neg, if_neg]
    · intro hc
      simp only [Bool.and_eq_true, beq_iff_eq] at hc
      exact hbareNl ⟨hc.1.1, hc.1.2, hc.2⟩
    · intro hc
      simp only [Bool.and_eq_true, beq_iff_eq] at hc
      exact hbare ⟨hc.1, hc.2⟩
  have hx : extract_video_id u = u :=
    extract_of_search1_none_of_bare_none (search1_eq_none_of_checks u hno) hbm
  refine ⟨hx, fun hstart => ?_⟩
  constructor
  · rintro ⟨e, he⟩ hlen
    rw [run_youtube_validate, hstart] at he
    simp only [Bool.not_true, Bool.false_eq_true, if_false, hx] at he
    have hne : u.isEmpty = false := by
      cases u
      · simp at hlen
      · rfl
    rw [hne, hlen] at he
    simp at he
  · intro hlen
    refine ⟨"Invalid YouTube URL", ?_⟩
    rw [run_youtube_validate, hstart]
    simp only [Bool.not_true, Bool.false_eq_true, if_false, hx]
    have : (u.length == 11) = false := by
      simpa using hlen
    simp [this]

/-- Witness for C10: `"http?bad url"` (12 characters, no id pattern match)
passes through extraction unchanged and is rejected by the length check. -/
theorem C10_extract_passthrough_witness :
    ((∀ i, i < "http?bad url".toList.length →
        checkV ("http?bad url".toList.drop i) = none ∧
        checkSlash ("http?bad url".toList.drop i) = none) ∧
      ¬("http?bad url".toList.length = 11 ∧ "http?bad url".toList.all validChar = true) ∧
      ¬("http?bad url".toList.length = 12
        ∧ ("http?bad url".toList.take 11).all validChar = true
        ∧ "http?bad url".toList.getLast? = some '\n') ∧
      urlStartOk "http?bad url".toList = true) ∧
    (extract_video_id "http?bad url".toList = "http?bad url".toList ∧
      ((∃ e, run_youtube_validate "http?bad url".toList = Except.error e)
        ↔ "http?bad url".toList.length ≠ 11)) := by
  refine ⟨⟨by decide, by decide, by decide, by decide⟩, ?_⟩
  have h := C10_extract_passthrough "http?bad url".toList (by decide) (by decide)
    (by decide)
  exact ⟨h.1, h.2 (by decide)⟩

/-- The class `[<>:"/\\|?*]` removed by `sanitize_filename`. -/
def invalidFileChar (c : Char) : Bool :=
  c == '<' || c == '>' || c == ':' || c == '"' || c == '/' || c == '\\' ||
    c == '|' || c == '?' || c == '*'

/-- The class `[\s_]` collapsed to `-` by `sanitize_filename` (ASCII members
of Python `\s`, plus underscore). -/
def spaceUnderscore (c : Char) : Bool :=
  c == ' ' || c == '\t' || c == '\n' || c == '\r' || c == '\x0b' || c == '\x0c'
    || c == '_'

/-- `re.sub(r'[\s_]+', '-', s)`: each maximal run of `[\s_]` characters is
replaced by a single dash. -/
def collapseRuns : List Char → List Char
  | [] => []
  | [c] => if spaceUnderscore c then ['-'] else [c]
  | c :: d :: rest =>
    if spaceUnderscore c then
      if spaceUnderscore d then collapseRuns (d :: rest)
      else '-' :: collapseRuns (d :: rest)
    else c :: collapseRuns (d :: rest)

/-- The strip set `'-. '` of `sanitize_filename`. -/
def stripChar (c : Char) : Bool := c == '-' || c == '.' || c == ' '

/-- Python `str.rstrip`, dropping trailing characters satisfying `p`. -/
def rstripBy (p : Char → Bool) (l : List Char) : List Char :=
  (l.reverse.dropWhile p).reverse

/-- Steps 1-3 of `sanitize_filename`: remove `[<>:"/\\|?*]`, collapse `[\s_]+`
runs to `-`, and strip `'-. '` from both ends. -/
def stripCollapsed (title : List Char) : List Char :=
  rstripBy stripChar
    ((collapseRuns (title.filter (fun c => !invalidFileChar c))).dropWhile stripChar)

/-- `safe_title[:100].rstrip('-. ')`, applied only when over 100 characters. -/
def truncate100 (l : List Char) : List Char :=
  if 100 < l.length then rstripBy stripChar (l.take 100) else l

/-- `sanitize_filename` from `youtube_agent.py` (lines 61-81) with the
default `max_length = 100`: remove invalid filename characters, collapse
whitespace/underscore runs to single dashes, strip `'-. '` from both ends,
truncate to 100 characters re-stripping the tail, and fall back to
`"untitled-video"` when empty. -/
def sanitize_filename (title : List Char) : List Char :=
  if (truncate100 (stripCollapsed title)).isEmpty then "untitled-video".toList
  else truncate100 (stripCollapsed title)

theorem mem_collapseRuns {l : List Char} {c : Char} (h : c ∈ collapseRuns l) :
    c ∈ l ∨ c = '-' := by
  induction l with
  | nil => simp [collapseRuns] at h
  | cons a as ih =>
    cases as with
    | nil =>
      simp only [collapseRuns] at h
      split at h
      · simp only [List.mem_singleton] at h
        exact Or.inr h
      · simp only [List.mem_singleton] at h
        exact Or.inl (h ▸ List.mem_cons_self a [])
    | cons b bs =>
      simp only [collapseRuns] at h
      split at h
      · split at h
        · rcases ih h with hm | hd
          · exact Or.inl (List.mem_cons_of_mem a hm)
          · exact Or.inr hd
        · rcases List.mem_cons.mp h with rfl | h2
          · exact Or.inr rfl
          · rcases ih h2 with hm | hd
            · exact Or.inl (List.mem_cons_of_mem a hm)
            · exact Or.inr hd
      · rcases List.mem_cons.mp h with rfl | h2
        · exact Or.inl (List.mem_cons_self c (b :: bs))
        · rcases ih h2 with hm | hd
          · exact Or.inl (List.mem_cons_of_mem a hm)
          · exact Or.inr hd

theorem collapseRuns_no_sp {l : List Char} {c : Char} (h : c ∈ collapseRuns l) :
    spaceUnderscore c = false := by
  induction l with
  | nil => simp [collapseRuns] at h
  | cons a as ih =>
    cases as with
    | nil =>
      simp only [collapseRuns] at h
      split at h
      · simp only [List.mem_singleton] at h
        subst h; decide
      · rename_i hsp
        simp only [List.mem_singleton] at h
        subst h
        simpa using hsp
    | cons b bs =>
      simp only [collapseRuns] at h
      split at h
      · split at h
        · exact ih h
        · rcases List.mem_cons.mp h with rfl | h2
          · decide
          · exact ih h2
      · rename_i hsp
        rcases List.mem_cons.mp h with rfl | h2
        · simpa using hsp
        · exact ih h2

theorem collapseRuns_eq_self {l : List Char}
    (h : ∀ c ∈ l, spaceUnderscore c = false) : collapseRuns l = l := by
  induction l with
  | nil => rfl
  | cons a as ih =>
    have ha : spaceUnderscore a = false := h a (List.mem_cons_self a as)
    cases as with
    | nil => simp [collapseRuns, ha]
    | cons b bs =>
      simp only [collapseRuns, ha, Bool.false_eq_true, if_false]
      rw [ih fun c hc => h c (List.mem_cons_of_mem a hc)]

theorem dropWhile_eq_self_of_head {p : Char → Bool} {l : List Char}
    (h : ∀ c, l.head? = some c → p c = false) : l.dropWhile p = l := by
  cases l with
  | nil => rfl
  | cons a as =>
    rw [List.dropWhile_cons, h a rfl]
    simp

theorem head?_dropWhile_not {p : Char → Bool} {l : List Char} {c : Char}
    (h : (l.dropWhile p).head? = some c) : p c = false := by
  induction l with
  | nil => simp [List.dropWhile] at h
  | cons a as ih =>
    rw [List.dropWhile_cons] at h
    split at h
    · exact ih h
    · rename_i hpa
      simp only [List.head?_cons, Option.some.injEq] at h
      subst h
      simpa using hpa

theorem rstripBy_isPre (p : Char → Bool) (l : List Char) :
    rstripBy p l <+: l := by
  have hs : l.reverse.dropWhile p <:+ l.reverse := List.dropWhile_suffix p
  have := List.reverse_prefix.mpr hs
  simpa [rstripBy] using this

theorem head?_of_isPre {l₁ l₂ : List Char} {c : Char} (h : l₁ <+: l₂)
    (hc : l₁.head? = some c) : l₂.head? = some c := by
  obtain ⟨t, rfl⟩ := h
  cases l₁ with
  | nil => simp at hc
  | cons a as => simpa using hc

theorem getLast?_rstripBy_not {p : Char → Bool} {l : List Char} {c : Char}
    (h : (rstripBy p l).getLast? = some c) : p c = false := by
  rw [rstripBy, List.getLast?_reverse] at h
  exact head?_dropWhile_not h

theorem rstripBy_eq_self_of_getLast {p : Char → Bool} {l : List Char}
    (h : ∀ c, l.getLast? = some c → p c = false) : rstripBy p l = l := by
  rw [rstripBy, dropWhile_eq_self_of_head, List.reverse_reverse]
  intro c hc
  rw [List.head?_reverse] at hc
  exact h c hc

theorem length_rstripBy_le (p : Char → Bool) (l : List Char) :
    (rstripBy p l).length ≤ l.length := by
  have := (rstripBy_isPre p l).sublist.length_le
  exact this

theorem truncate100_isPre (l : List Char) : truncate100 l <+: l := by
  unfold truncate100
  split
  · exact (rstripBy_isPre _ _).trans (List.take_prefix _ _)
  · exact List.prefix_refl l

theorem length_truncate100_le (l : List Char) :
    (truncate100 l).length ≤ 100 := by
  unfold truncate100
  split
  · calc (rstripBy stripChar (l.take 100)).length
        ≤ (l.take 100).length := length_rstripBy_le _ _
      _ ≤ 100 := by simp [List.length_take]
  · exact Nat.le_of_not_lt (by assumption)

theorem getLast?_truncate100_strip {x : List Char} {c : Char}
    (h : (truncate100 (rstripBy stripChar x)).getLast? = some c) :
    stripChar c = false := by
  unfold truncate100 at h
  split at h
  · exact getLast?_rstripBy_not h
  · exact getLast?_rstripBy_not h

/-- Properties of every `sanitize_filename` output: no invalid filename
character, no `[\s_]` character, ends not in the strip set, at most 100
characters, nonempty. -/
theorem sanitize_props (t : List Char) :
    (∀ c ∈ sanitize_filename t, invalidFileChar c = false) ∧
    (∀ c ∈ sanitize_filename t, spaceUnderscore c = false) ∧
    (∀ c, (sanitize_filename t).head? = some c → stripChar c = false) ∧
    (∀ c, (sanitize_filename t).getLast? = some c → stripChar c = false) ∧
    (sanitize_filename t).length ≤ 100 ∧
    sanitize_filename t ≠ [] := by
  by_cases hemp : (truncate100 (stripCollapsed t)).isEmpty = true
  · have e : sanitize_filename t = "untitled-video".toList := by
      unfold sanitize_filename
      rw [hemp]
      rfl
    rw [e]
    refine ⟨by decide, by decide, ?_, ?_, by decide, by decide⟩
    · intro c hc
      have hc' : some 'u' = some c := hc
      injection hc' with h
      subst h
      decide
    · intro c hc
      have hc' : some 'o' = some c := hc
      injection hc' with h
      subst h
      decide
  · have e : sanitize_filename t = truncate100 (stripCollapsed t) := by
      unfold sanitize_filename
      rw [eq_false_of_ne_true hemp]
      rfl
    rw [e]
    have hmem2 : ∀ c ∈ truncate100 (stripCollapsed t),
        c ∈ collapseRuns (t.filter (fun c => !invalidFileChar c)) := by
      intro c hc
      have h1 : c ∈ stripCollapsed t := (truncate100_isPre _).subset hc
      have h2 : c ∈ (collapseRuns (t.filter (fun c => !invalidFileChar c))).dropWhile
          stripChar := (rstripBy_isPre _ _).subset h1
      exact (List.dropWhile_suffix _).subset h2
    refine ⟨?_, ?_, ?_, ?_, length_truncate100_le _, ?_⟩
    · intro c hc
      rcases mem_collapseRuns (hmem2 c hc) with hm | rfl
      · have := (List.mem_filter.mp hm).2
        simpa using this
      · decide
    · intro c hc
      exact collapseRuns_no_sp (hmem2 c hc)
    · intro c hc
      have h1 : (stripCollapsed t).head? = some c :=
        head?_of_isPre (truncate100_isPre _) hc
      have h2 : ((collapseRuns (t.filter (fun c => !invalidFileChar c))).dropWhile
          stripChar).head? = some c := head?_of_isPre (rstripBy_isPre _ _) h1
      exact head?_dropWhile_not h2
    · intro c hc
      have hc' : (truncate100 (rstripBy stripChar ((collapseRuns
          (t.filter (fun c => !invalidFileChar c))).dropWhile stripChar))).getLast?
          = some c := hc
      exact getLast?_truncate100_strip hc'
    · intro hc
      rw [hc] at hemp
      exact hemp rfl

/-- A string already having all `sanitize_filename` output properties is a
fixed point of `sanitize_filename`. -/
theorem sanitize_fixed {r : List Char} (hne : r ≠ [])
    (hinv : ∀ c ∈ r, invalidFileChar c = false)
    (hsp : ∀ c ∈ r, spaceUnderscore c = false)
    (hhead : ∀ c, r.head? = some c → stripChar c = false)
    (hlast : ∀ c, r.getLast? = some c → stripChar c = false)
    (hlen : r.length ≤ 100) :
    sanitize_filename r = r := by
  have h1 : r.filter (fun c => !invalidFileChar c) = r :=
    List.filter_eq_self.mpr (fun c hc => by simp [hinv c hc])
  have h2 : collapseRuns r = r := collapseRuns_eq_self hsp
  have h3 : r.dropWhile stripChar = r := dropWhile_eq_self_of_head hhead
  have h4 : rstripBy stripChar r = r := rstripBy_eq_self_of_getLast hlast
  have hsc : stripCollapsed r = r := by
    unfold stripCollapsed
    rw [h1, h2, h3, h4]
  have htr : truncate100 r = r := by
    unfold truncate100
    rw [if_neg (Nat.not_lt.mpr hlen)]
  have hie : r.isEmpty = false := by
    cases r
    · exact absurd rfl hne
    · rfl
  unfold sanitize_filename
  rw [hsc, htr, hie]
  rfl

/-- C9: `sanitize_filename` is idempotent, and a title consisting solely of
characters invalid in filenames sanitizes to the fallback
`"untitled-video"`. -/
theorem C9_sanitize_filename :
    (∀ t : List Char, sanitize_filename (sanitize_filename t) = sanitize_filename t) ∧
    (∀ t : List Char, t.all invalidFileChar = true →
      sanitize_filename t = "untitled-video".toList) := by
  constructor
  · intro t
    obtain ⟨hinv, hsp, hhead, hlast, hlen, hne⟩ := sanitize_props t
    exact sanitize_fixed hne hinv hsp hhead hlast hlen
  · intro t hall
    have h1 : t.filter (fun c => !invalidFileChar c) = [] := by
      rw [List.filter_eq_nil_iff]
      intro a ha
      have := List.all_eq_true.mp hall a ha
      simp [this]
    have hsc : stripCollapsed t = [] := by
      unfold stripCollapsed
      rw [h1]
      rfl
    unfold sanitize_filename
    rw [hsc]
    rfl

/-- Witness for C9 at concrete titles: `"A -- B.."` is already sanitized
after one pass, and `"<>:?*"` consists solely of invalid characters. -/
theorem C9_sanitize_filename_witness :
    sanitize_filename (sanitize_filename "A -- B..".toList)
        = sanitize_filename "A -- B..".toList ∧
    ("<>:?*".toList.all invalidFileChar = true ∧
      sanitize_filename "<>:?*".toList = "untitled-video".toList) :=
  ⟨C9_sanitize_filename.1 _, by decide, C9_sanitize_filename.2 _ (by decide)⟩

/-- Outcome of one `run_youtube` call as observed by the loop body of
`run_youtube_batch` (youtube_agent.py lines 400-452): a result dict with
status `success` (carrying the title and, when present, the saved filename),
status `cancelled` (operator declined manual transcript input), status
`failed` with an error message, or an exception escaping `run_youtube`
(including the `AttributeError` on its `None` returns), caught by the
per-video `except` block. -/
inductive RunOutcome where
  | success (title : String) (savedFile : Option String)
  | cancelled (title : String)
  | failedRun (title : String) (error : String)
  | raisesExn (error : String)

/-- One entry of `results["videos"]`; `title` is absent on the exception
path, `savedFile` only present for successes when saving is enabled. -/
structure VideoItem where
  url : String
  title : Option String
  status : String
  error : Option String
  savedFile : Option String
deriving DecidableEq, Repr

/-- The `results` dict of `run_youtube_batch`. -/
structure BatchReport where
  total : Nat
  successful : Nat
  failed : Nat
  videos : List VideoItem
deriving DecidableEq, Repr

/-- One iteration of the `run_youtube_batch` loop: status `success`
increments `successful`, every other outcome (including `cancelled` and
exceptions) increments `failed`; exactly one `videos` entry is appended. -/
def processVideo (save_file : Bool) (r : BatchReport) (url : String)
    (out : RunOutcome) : BatchReport :=
  match out with
  | .success t sf =>
    { r with successful := r.successful + 1,
             videos := r.videos
               ++ [⟨url, some t, "success", none, if save_file then sf else none⟩] }
  | .cancelled t =>
    { r with failed := r.failed + 1,
             videos := r.videos
               ++ [⟨url, some t, "failed", some "Unknown error", none⟩] }
  | .failedRun t e =>
    { r with failed := r.failed + 1,
             videos := r.videos ++ [⟨url, some t, "failed", some e, none⟩] }
  | .raisesExn e =>
    { r with failed := r.failed + 1,
             videos := r.videos ++ [⟨url, none, "failed", some e, none⟩] }

/-- The sequential loop of `run_youtube_batch` over the expanded url list,
each url paired with the outcome its `run_youtube` call produces. -/
def runBatchSteps (save_file : Bool) :
    List (String × RunOutcome) → BatchReport → BatchReport
  | [], r => r
  | (u, o) :: rest, r => runBatchSteps save_file rest (processVideo save_file r u o)

def initReport (n : Nat) : BatchReport := ⟨n, 0, 0, []⟩

/-- `run_youtube_batch` (youtube_agent.py lines 329-474) after playlist
expansion: an empty expanded list returns an error dict instead of a report
(modelled `none`); otherwise the videos are processed strictly in order. -/
def run_youtube_batch (save_file : Bool) (items : List (String × RunOutcome)) :
    Option BatchReport :=
  if items.isEmpty then none
  else some (runBatchSteps save_file items (initReport items.length))

theorem counters_runBatchSteps (f : Bool) (items : List (String × RunOutcome))
    (r : BatchReport) :
    (runBatchSteps f items r).successful + (runBatchSteps f items r).failed
      = r.successful + r.failed + items.length := by
  induction items generalizing r with
  | nil => simp [runBatchSteps]
  | cons x rest ih =>
    obtain ⟨u, o⟩ := x
    rw [runBatchSteps, ih]
    cases o <;> simp [processVideo] <;> omega

theorem total_runBatchSteps (f : Bool) (items : List (String × RunOutcome))
    (r : BatchReport) : (runBatchSteps f items r).total = r.total := by
  induction items generalizing r with
  | nil => rfl
  | cons x rest ih =>
    obtain ⟨u, o⟩ := x
    rw [runBatchSteps, ih]
    cases o <;> rfl

/-- C1 counterexample: a batch whose single video is cancelled by the
operator yields `failed = 1` — the cancelled item is counted in the `failed`
bucket, not in neither. -/
theorem C1_cancelled_in_failed_bucket :
    run_youtube_batch true [("https://youtu.be/aaaaaaaaaaa", RunOutcome.cancelled "T")]
      = some { total := 1, successful := 0, failed := 1,
               videos := [⟨"https://youtu.be/aaaaaaaaaaa", some "T", "failed",
                 some "Unknown error", none⟩] } := by
  rfl

/-- C1 (amended): in every `run_youtube_batch` report,
`successful + failed ≤ total` after any number of processed items and
`successful + failed = total` at completion; cancelled items are counted in
the `failed` bucket. -/
theorem C1_batch_counters (f : Bool) (items : List (String × RunOutcome))
    (r : BatchReport) (h : run_youtube_batch f items = some r) :
    (∀ k, (runBatchSteps f (items.take k) (initReport items.length)).successful
        + (runBatchSteps f (items.take k) (initReport items.length)).failed
        ≤ r.total) ∧
    r.successful + r.failed = r.total := by
  unfold run_youtube_batch at h
  split at h
  · exact absurd h (by simp)
  · have hr : r = runBatchSteps f items (initReport items.length) :=
      (Option.some.injEq _ _ ▸ h).symm
    have htot : r.total = items.length := by
      rw [hr, total_runBatchSteps]
      rfl
    constructor
    · intro k
      rw [counters_runBatchSteps, htot]
      simp only [initReport, List.length_take]
      omega
    · rw [hr, counters_runBatchSteps, total_runBatchSteps]
      simp [initReport]

/-- Witness for C1 at a concrete two-item batch (one success, one
cancellation). -/
theorem C1_batch_counters_witness :
    run_youtube_batch true
        [("u1", RunOutcome.success "A" none), ("u2", RunOutcome.cancelled "B")]
      = some { total := 2, successful := 1, failed := 1,
               videos := [⟨"u1", some "A", "success", none, none⟩,
                          ⟨"u2", some "B", "failed", some "Unknown error", none⟩] } ∧
    (1 : Nat) + 1 = 2 := by
  refine ⟨by decide, ?_⟩
  have h := C1_batch_counters true
    [("u1", RunOutcome.success "A" none), ("u2", RunOutcome.cancelled "B")]
    { total := 2, successful := 1, failed := 1,
      videos := [⟨"u1", some "A", "success", none, none⟩,
                 ⟨"u2", some "B", "failed", some "Unknown error", none⟩] }
    (by decide)
  exact h.2

/-- The `videos` entry `processVideo` appends for a given outcome. -/
def itemRecord (save_file : Bool) (url : String) (o : RunOutcome) : VideoItem :=
  match o with
  | .success t sf => ⟨url, some t, "success", none, if save_file then sf else none⟩
  | .cancelled t => ⟨url, some t, "failed", some "Unknown error", none⟩
  | .failedRun t e => ⟨url, some t, "failed", some e, none⟩
  | .raisesExn e => ⟨url, none, "failed", some e, none⟩

theorem processVideo_eq (f : Bool) (r : BatchReport) (u : String) (o : RunOutcome) :
    processVideo f r u o =
      { r with successful := r.successful + (if o matches .success .. then 1 else 0),
               failed := r.failed + (if o matches .success .. then 0 else 1),
               videos := r.videos ++ [itemRecord f u o] } := by
  cases o <;> rfl

/-- An outcome representing a video that failed (status `failed` or an
exception), as opposed to success or cancellation. -/
def isFailOutcome : RunOutcome → Bool
  | .failedRun _ _ => true
  | .raisesExn _ => true
  | _ => false

theorem runBatchSteps_append (f : Bool) (a b : List (String × RunOutcome))
    (r : BatchReport) :
    runBatchSteps f (a ++ b) r = runBatchSteps f b (runBatchSteps f a r) := by
  induction a generalizing r with
  | nil => rfl
  | cons x rest ih =>
    obtain ⟨u, o⟩ := x
    rw [List.cons_append, runBatchSteps, runBatchSteps, ih]

/-- Mapping `(url, title, savedFile)` triples to success outcomes. -/
def toSuccessItems (xs : List (String × String × Option String)) :
    List (String × RunOutcome) :=
  xs.map (fun x => (x.1, RunOutcome.success x.2.1 x.2.2))

/-- The success record produced for such a triple when saving is enabled. -/
def successRecord (x : String × String × Option String) : VideoItem :=
  ⟨x.1, some x.2.1, "success", none, x.2.2⟩

theorem runBatchSteps_successes (xs : List (String × String × Option String))
    (r : BatchReport) :
    runBatchSteps true (toSuccessItems xs) r =
      { r with successful := r.successful + xs.length,
               videos := r.videos ++ xs.map successRecord } := by
  induction xs generalizing r with
  | nil => simp [toSuccessItems, runBatchSteps]
  | cons x rest ih =>
    rw [toSuccessItems, List.map_cons]
    rw [runBatchSteps]
    have hp : processVideo true r x.1 (RunOutcome.success x.2.1 x.2.2) =
        { r with successful := r.successful + 1,
                 videos := r.videos ++ [successRecord x] } := rfl
    rw [hp]
    rw [show (rest.map (fun x => (x.1, RunOutcome.success x.2.1 x.2.2)))
        = toSuccessItems rest from rfl]
    rw [ih]
    simp [Nat.add_assoc, Nat.add_comm 1 rest.length]

theorem runBatchSteps_failOne (f : Bool) (u : String) (o : RunOutcome)
    (hf : isFailOutcome o = true) (r : BatchReport) :
    runBatchSteps f [(u, o)] r =
      { r with failed := r.failed + 1, videos := r.videos ++ [itemRecord f u o] } := by
  cases o with
  | success t sf => exact absurd hf (by simp [isFailOutcome])
  | cancelled t => exact absurd hf (by simp [isFailOutcome])
  | failedRun t e => rfl
  | raisesExn e => rfl

/-- C2: in a batch whose expanded list is `pre ++ [failing video] ++ post`
with all of `pre`/`post` succeeding and the middle video failing (error
status or exception, caught at the per-video boundary), the batch runs to
completion and the report has `successful = N-1`, `failed = 1`, with the
succeeding items recorded in their original order with their own contents. -/
theorem C2_batch_isolation (pre post : List (String × String × Option String))
    (u0 : String) (fo : RunOutcome) (hf : isFailOutcome fo = true) :
    run_youtube_batch true (toSuccessItems pre ++ [(u0, fo)] ++ toSuccessItems post)
      = some { total := pre.length + 1 + post.length,
               successful := pre.length + post.length,
               failed := 1,
               videos := pre.map successRecord ++ [itemRecord true u0 fo]
                 ++ post.map successRecord } := by
  have hlen : (toSuccessItems pre ++ [(u0, fo)] ++ toSuccessItems post).length
      = pre.length + 1 + post.length := by
    simp [toSuccessItems]
    omega
  have hne : (toSuccessItems pre ++ [(u0, fo)] ++ toSuccessItems post).isEmpty
      = false := by
    rw [List.isEmpty_eq_false]
    intro hc
    have := congrArg List.length hc
    rw [hlen] at this
    simp at this
  unfold run_youtube_batch
  rw [hne]
  simp only [Bool.false_eq_true, if_false, Option.some.injEq]
  rw [hlen, runBatchSteps_append, runBatchSteps_append]
  rw [runBatchSteps_successes, runBatchSteps_failOne _ _ _ hf,
    runBatchSteps_successes]
  simp [initReport, List.append_assoc]

/-- Witness for C2: a three-video batch whose middle video raises. -/
theorem C2_batch_isolation_witness :
    isFailOutcome (RunOutcome.raisesExn "boom") = true ∧
    run_youtube_batch true
        [("uA", RunOutcome.success "TA" (some "TA.md")),
         ("uX", RunOutcome.raisesExn "boom"),
         ("uB", RunOutcome.success "TB" (some "TB.md"))]
      = some { total := 3, successful := 2, failed := 1,
               videos := [⟨"uA", some "TA", "success", none, some "TA.md"⟩,
                          ⟨"uX", none, "failed", some "boom", none⟩,
                          ⟨"uB", some "TB", "success", none, some "TB.md"⟩] } :=
  ⟨by decide,
   C2_batch_isolation [("uA", "TA", some "TA.md")] [("uB", "TB", some "TB.md")]
     "uX" (RunOutcome.raisesExn "boom") (by decide)⟩

/-- Python's substring test `pat in s`. -/
def containsSub (pat : List Char) : List Char → Bool
  | [] => pat.isEmpty
  | c :: cs => pat.isPrefixOf (c :: cs) || containsSub pat cs

theorem containsSub_of_isPre {pat l : List Char} (h : pat.isPrefixOf l = true) :
    containsSub pat l = true := by
  cases l with
  | nil =>
    cases pat with
    | nil => rfl
    | cons a as => simp [List.isPrefixOf] at h
  | cons c cs =>
    rw [containsSub, h]
    rfl

theorem containsSub_of_pre_of_sfx {pat m l : List Char}
    (h1 : pat.isPrefixOf m = true) (h2 : m <:+ l) : containsSub pat l = true := by
  obtain ⟨t, rfl⟩ := h2
  induction t with
  | nil =>
    rw [List.nil_append]
    exact containsSub_of_isPre h1
  | cons c ts ih =>
    rw [List.cons_append, containsSub, ih, Bool.or_true]

/-- `is_playlist_url` from `youtube_utils.py` (lines 40-50). -/
def is_playlist_url (url : String) : Bool :=
  containsSub "list=".toList url.toList || containsSub "playlist?".toList url.toList

/-- One position of pattern `[?&]list=([0-9A-Za-z_-]+)` of
`extract_playlist_id`: a `?` or `&`, the literal `list=`, then a maximal
nonempty run of id-class characters (the group). -/
def checkPl1 : List Char → Option (List Char)
  | [] => none
  | a :: rest =>
    if (a == '?' || a == '&') && List.isPrefixOf "list=".toList rest
        && !((rest.drop 5).takeWhile validChar).isEmpty then
      some ((rest.drop 5).takeWhile validChar)
    else none

/-- One position of pattern `youtube\.com/playlist\?list=([0-9A-Za-z_-]+)`. -/
def checkPl2 (l : List Char) : Option (List Char) :=
  if List.isPrefixOf "youtube.com/playlist?list=".toList l
      && !((l.drop 26).takeWhile validChar).isEmpty then
    some ((l.drop 26).takeWhile validChar)
  else none

/-- `re.search` for a playlist-id pattern: leftmost matching position. -/
def searchPl (check : List Char → Option (List Char)) : List Char → Option (List Char)
  | [] => none
  | c :: cs => (check (c :: cs)).or (searchPl check cs)

/-- `extract_playlist_id` from `youtube_utils.py` (lines 20-38): the two
patterns are tried in order; `none` when neither matches anywhere. -/
def extract_playlist_id (url : String) : Option (List Char) :=
  (searchPl checkPl1 url.toList).or (searchPl checkPl2 url.toList)

theorem searchPl_some_exists {check : List Char → Option (List Char)}
    {l g : List Char} (h : searchPl check l = some g) :
    ∃ m, check m = some g ∧ m <:+ l := by
  induction l with
  | nil => exact absurd h (by rw [searchPl]; exact fun hx => Option.noConfusion hx)
  | cons c cs ih =>
    rw [searchPl] at h
    cases hc : check (c :: cs) with
    | some g' =>
      rw [hc, option_some_or] at h
      exact ⟨c :: cs, hc.trans h, List.suffix_refl _⟩
    | none =>
      rw [hc, option_none_or] at h
      obtain ⟨m, hm, hsfx⟩ := ih h
      exact ⟨m, hm, hsfx.trans (List.suffix_cons c cs)⟩

/-- A url with an extractable playlist id contains the substring `list=`. -/
theorem listEq_sub_of_playlist_id {url : String} {g : List Char}
    (h : extract_playlist_id url = some g) :
    containsSub "list=".toList url.toList = true := by
  unfold extract_playlist_id at h
  cases h1 : searchPl checkPl1 url.toList with
  | some g' =>
    obtain ⟨m, hm, hsfx⟩ := searchPl_some_exists h1
    cases m with
    | nil => exact absurd hm (by rw [show checkPl1 [] = none from rfl]; simp)
    | cons a rest =>
      rw [show checkPl1 (a :: rest)
          = if (a == '?' || a == '&') && List.isPrefixOf "list=".toList rest
              && !((rest.drop 5).takeWhile validChar).isEmpty then
              some ((rest.drop 5).takeWhile validChar)
            else none from rfl] at hm
      split at hm
      · rename_i hcond
        simp only [Bool.and_eq_true] at hcond
        exact containsSub_of_pre_of_sfx hcond.1.2
          ((List.suffix_cons a rest).trans hsfx)
      · exact absurd hm (by simp)
  | none =>
    rw [h1, option_none_or] at h
    obtain ⟨m, hm, hsfx⟩ := searchPl_some_exists h
    unfold checkPl2 at hm
    split at hm
    · rename_i hcond
      simp only [Bool.and_eq_true] at hcond
      obtain ⟨t, ht⟩ := List.isPrefixOf_iff_prefix.mp hcond.1
      have hpre : List.isPrefixOf "list=".toList (m.drop 21) = true := by
        rw [← ht]
        exact List.isPrefixOf_iff_prefix.mpr ⟨t, rfl⟩
      exact containsSub_of_pre_of_sfx hpre ((List.drop_suffix 21 m).trans hsfx)
    · exact absurd hm (by simp)

/-- What the youtube branch of `main.py` decides to do (lines 201-258):
reject the request with exit(1) before any processing (the batch-vs-clipboard
conflict message), hand the url list to `run_youtube_batch`, or hand a single
optional url to `run_youtube`. `rejectBatchClipboard` happens before any
video is processed and performs no file writes. -/
inductive MainAction where
  | rejectBatchClipboard
  | runBatch (urls : List String)
  | runSingle (video : Option String)
deriving DecidableEq

/-- The youtube-branch control flow of `main` (main.py lines 201-258):
`--save-file` forces the markdown target; `needs_batch` is more than one url,
or exactly one url containing `list=`; batch with markdown target and no
`--save-file` is rejected before any processing. -/
def main_youtube_decision (videoArgs : List String) (target : String)
    (save_file : Bool) : MainAction :=
  let target2 := if save_file && target == "slack" then "markdown" else target
  let needsBatch := decide (1 < videoArgs.length)
    || (videoArgs.length == 1 && containsSub "list=".toList (videoArgs.headD "").toList)
  if needsBatch && target2 == "markdown" && !save_file then .rejectBatchClipboard
  else if needsBatch && target2 == "markdown" then .runBatch videoArgs
  else .runSingle videoArgs.head?

/-- C3: an invocation with clipboard-only output (markdown target, no
`--save-file`) and either two or more video urls or a single url carrying a
playlist identifier is rejected before any video is processed. -/
theorem C3_batch_clipboard_rejected (videos : List String)
    (h : 2 ≤ videos.length ∨ ∃ u ∈ videos, ∃ g, extract_playlist_id u = some g) :
    main_youtube_decision videos "markdown" false
      = MainAction.rejectBatchClipboard := by
  have hnb : (decide (1 < videos.length)
      || (videos.length == 1
          && containsSub "list=".toList (videos.headD "").toList)) = true := by
    rcases h with h2 | ⟨u, hu, g, hg⟩
    · have h1 : 1 < videos.length := h2
      simp [h1]
    · by_cases hl : 1 < videos.length
      · simp [hl]
      · have hpos : 0 < videos.length := List.length_pos_of_mem hu
        have hlen : videos.length = 1 := by omega
        obtain ⟨a, rfl⟩ := List.length_eq_one.mp hlen
        have hua : u = a := by simpa using hu
        subst hua
        have hc := listEq_sub_of_playlist_id hg
        simp
        exact hc
  unfold main_youtube_decision
  simp only [hnb]
  rfl

/-- Witness for C3: a single playlist url with clipboard-only output. -/
theorem C3_batch_clipboard_rejected_witness :
    main_youtube_decision ["https://www.youtube.com/playlist?list=PL123"]
        "markdown" false = MainAction.rejectBatchClipboard :=
  C3_batch_clipboard_rejected _
    (Or.inr ⟨"https://www.youtube.com/playlist?list=PL123",
      List.mem_cons_self _ _, "PL123".toList, by decide⟩)

/-- One transcript handle exposed by the provider for a video: its language
code, whether it is auto-generated, and the provider's response to the k-th
`.fetch()` call on it (`none` models a raised fetch exception). -/
structure Transcript where
  language_code : String
  is_generated : Bool
  fetchRes : Nat → Option String

/-- The manually created transcript for a language, searched in catalog
order (models the manual-transcripts dict of youtube-transcript-api). -/
def findManual (lang : String) (cat : List Transcript) : Option Transcript :=
  cat.find? (fun t => t.language_code == lang && !t.is_generated)

/-- `TranscriptList.find_generated_transcript([lang])`. -/
def findGenerated (lang : String) (cat : List Transcript) : Option Transcript :=
  cat.find? (fun t => t.language_code == lang && t.is_generated)

/-- `TranscriptList.find_transcript([lang])` of youtube-transcript-api: the
manually created transcripts are searched before the generated ones. -/
def find_transcript (lang : String) (cat : List Transcript) : Option Transcript :=
  (findManual lang cat).or (findGenerated lang cat)

/-- Strategies 1-3 of `analyze_video` (youtube_tools.py lines 206-250):
requested language via `find_transcript` then `find_generated_transcript`,
the same two for English when the requested language is not English, then
the first available transcript. -/
def selectTranscript (lang : String) (cat : List Transcript) : Option Transcript :=
  ((find_transcript lang cat).or (findGenerated lang cat)).or
    ((if lang == "en" then none
      else (find_transcript "en" cat).or (findGenerated "en" cat)).or cat.head?)

/-- The tier order as §4.1 of the spec words it: requested-language manual,
requested-language generated, English manual then English generated (only
when the requested language is not English), then any available
transcript. -/
def specTierSelect (lang : String) (cat : List Transcript) : Option Transcript :=
  (findManual lang cat).or ((findGenerated lang cat).or
    ((if lang == "en" then none
      else (findManual "en" cat).or (findGenerated "en" cat)).or cat.head?))

/-- C4: the code's transcript selection equals the spec's strict tier order,
and whenever a manual transcript exists in the requested language the
selected transcript is that manual transcript (never a lower tier). -/
theorem C4_manual_transcript_first (lang : String) (cat : List Transcript) :
    selectTranscript lang cat = specTierSelect lang cat ∧
    (∀ t, findManual lang cat = some t →
      selectTranscript lang cat = some t ∧ t.is_generated = false ∧
        t.language_code = lang) := by
  constructor
  · have hsr : ∀ (a b : Option Transcript), (a.or b).or b = a.or b := by
      intro a b
      cases a <;> cases b <;> rfl
    have hassoc : ∀ (a b c : Option Transcript), (a.or b).or c = a.or (b.or c) := by
      intro a b c
      cases a <;> rfl
    unfold selectTranscript specTierSelect find_transcript
    rw [hsr (findManual lang cat) (findGenerated lang cat),
      hsr (findManual "en" cat) (findGenerated "en" cat),
      hassoc]
  · intro t hm
    refine ⟨?_, ?_, ?_⟩
    · unfold selectTranscript find_transcript
      rw [hm]
      rfl
    · have hp := List.find?_some hm
      simp only [Bool.and_eq_true, Bool.not_eq_true'] at hp
      exact hp.2
    · have hp := List.find?_some hm
      simp only [Bool.and_eq_true] at hp
      exact eq_of_beq hp.1

/-- Witness for C4: a catalog holding a generated and a manual transcript
for the requested language; the manual one is selected. -/
theorem C4_manual_transcript_first_witness :
    findManual "en" [⟨"en", false, fun _ => none⟩, ⟨"en", true, fun _ => none⟩]
      = some ⟨"en", false, fun _ => none⟩ ∧
    (selectTranscript "en" [⟨"en", false, fun _ => none⟩, ⟨"en", true, fun _ => none⟩]
        = some ⟨"en", false, fun _ => none⟩ ∧
      (⟨"en", false, fun _ => none⟩ : Transcript).is_generated = false ∧
      (⟨"en", false, fun _ => none⟩ : Transcript).language_code = "en") :=
  ⟨rfl, (C4_manual_transcript_first "en" _).2 _ rfl⟩

/-- Observable fetch events: a `.fetch()` call on a transcript (identified by
language code and generation flag, with its per-transcript call index) or a
`time.sleep` of the given number of seconds. -/
inductive FetchEv where
  | attemptFetch (language_code : String) (is_generated : Bool) (callIdx : Nat)
  | sleepSec (seconds : Nat)
deriving DecidableEq, Repr

def attemptEv (t : Transcript) (k : Nat) : FetchEv :=
  .attemptFetch t.language_code t.is_generated k

/-- The retry loop of `analyze_video` (youtube_tools.py lines 252-262 and
325-327): up to 3 `.fetch()` calls on the selected transcript with
`time.sleep(1)` between consecutive attempts and none after the last. -/
def retryFetch (t : Transcript) : Option String × List FetchEv :=
  match t.fetchRes 0 with
  | some d => (some d, [attemptEv t 0])
  | none =>
    match t.fetchRes 1 with
    | some d => (some d, [attemptEv t 0, .sleepSec 1, attemptEv t 1])
    | none =>
      match t.fetchRes 2 with
      | some d =>
        (some d, [attemptEv t 0, .sleepSec 1, attemptEv t 1, .sleepSec 1, attemptEv t 2])
      | none =>
        (none, [attemptEv t 0, .sleepSec 1, attemptEv t 1, .sleepSec 1, attemptEv t 2])

/-- The cross-transcript fallback of `analyze_video` (youtube_tools.py lines
263-275): iterate the available transcripts in catalog order, skip those
whose `language_code` equals the selected language, fetch each remaining one
once, and stop at the first success, recording its language. -/
def tryAlts (selLang : String) : List Transcript → Option (String × String) × List FetchEv
  | [] => (none, [])
  | t :: rest =>
    if t.language_code == selLang then tryAlts selLang rest
    else
      match t.fetchRes 0 with
      | some d => (some (d, t.language_code), [attemptEv t 0])
      | none =>
        let r := tryAlts selLang rest
        (r.1, attemptEv t 0 :: r.2)

/-- Content fetch of the selected transcript: retries first, then the
cross-transcript fallback; returns the transcript text with the language
finally used, and the fetch/sleep event trace. -/
def fetchPhase (cat : List Transcript) (sel : Transcript) :
    Option (String × String) × List FetchEv :=
  match retryFetch sel with
  | (some d, evs) => (some (d, sel.language_code), evs)
  | (none, evs) =>
    let r := tryAlts sel.language_code cat
    (r.1, evs ++ r.2)

/-- The three possible shapes of the retry trace: attempts at call indices
0..k, one `sleepSec 1` between consecutive attempts. -/
def retryShape (t : Transcript) : Nat → List FetchEv
  | 0 => [attemptEv t 0]
  | 1 => [attemptEv t 0, .sleepSec 1, attemptEv t 1]
  | _ => [attemptEv t 0, .sleepSec 1, attemptEv t 1, .sleepSec 1, attemptEv t 2]

/-- The prefix of a list up to and including its first element satisfying
`p` (the elements the fallback loop actually touches). -/
def upToFirst (p : α → Bool) : List α → List α
  | [] => []
  | x :: xs => if p x then [x] else x :: upToFirst p xs

/-- C5 counterexample: with a manual-English transcript selected and always
failing, and a generated-English transcript whose fetch would succeed, the
fallback never attempts the generated transcript (same language code) and
the whole fetch fails — not every *other* transcript is attempted. -/
theorem C5_same_language_alt_never_attempted :
    selectTranscript "en"
        [⟨"en", false, fun _ => none⟩, ⟨"en", true, fun _ => some "text"⟩]
      = some ⟨"en", false, fun _ => none⟩ ∧
    (fetchPhase [⟨"en", false, fun _ => none⟩, ⟨"en", true, fun _ => some "text"⟩]
        ⟨"en", false, fun _ => none⟩).1 = none ∧
    FetchEv.attemptFetch "en" true 0 ∉
      (fetchPhase [⟨"en", false, fun _ => none⟩, ⟨"en", true, fun _ => some "text"⟩]
        ⟨"en", false, fun _ => none⟩).2 := by
  refine ⟨rfl, rfl, ?_⟩
  intro hmem
  have he : (fetchPhase [⟨"en", false, fun _ => none⟩, ⟨"en", true, fun _ => some "text"⟩]
      ⟨"en", false, fun _ => none⟩).2
      = [FetchEv.attemptFetch "en" false 0, FetchEv.sleepSec 1,
         FetchEv.attemptFetch "en" false 1, FetchEv.sleepSec 1,
         FetchEv.attemptFetch "en" false 2] := rfl
  rw [he] at hmem
  simp at hmem

/-- C5 (amended): the selected transcript's fetch is attempted at most 3
times (at call indices 0..k, k ≤ 2, stopping at the first success) with a
fixed 1-second sleep between consecutive attempts; when all 3 fail, every
other available transcript *whose language code differs from the selected
one* is attempted once each in catalog order, the first success is accepted
and its language recorded. -/
theorem C5_retry_and_cross_fallback (cat : List Transcript) (sel : Transcript) :
    (∃ k, k ≤ 2 ∧ (retryFetch sel).2 = retryShape sel k ∧
      (∀ i, i < k → sel.fetchRes i = none) ∧
      (retryFetch sel).1 = sel.fetchRes k ∧ (sel.fetchRes k = none → k = 2)) ∧
    (∀ d evs, retryFetch sel = (some d, evs) →
      fetchPhase cat sel = (some (d, sel.language_code), evs)) ∧
    ((retryFetch sel).1 = none →
      fetchPhase cat sel
        = ((tryAlts sel.language_code cat).1,
           (retryFetch sel).2 ++ (tryAlts sel.language_code cat).2)) ∧
    (tryAlts sel.language_code cat).1
      = ((cat.filter (fun t => t.language_code != sel.language_code)).find?
          (fun t => (t.fetchRes 0).isSome)).map
          (fun t => ((t.fetchRes 0).getD "", t.language_code)) ∧
    (tryAlts sel.language_code cat).2
      = (upToFirst (fun t => (t.fetchRes 0).isSome)
          (cat.filter (fun t => t.language_code != sel.language_code))).map
          (fun t => attemptEv t 0) := by
  refine ⟨?_, ?_, ?_, ?_, ?_⟩
  · cases h0 : sel.fetchRes 0 with
    | some d =>
      refine ⟨0, by omega, ?_, ?_, ?_, ?_⟩
      · simp [retryFetch, h0, retryShape]
      · intro i hi
        omega
      · simp [retryFetch, h0]
      · intro hc
        rw [h0] at hc
        cases hc
    | none =>
      cases h1 : sel.fetchRes 1 with
      | some d =>
        refine ⟨1, by omega, ?_, ?_, ?_, ?_⟩
        · simp [retryFetch, h0, h1, retryShape]
        · intro i hi
          have : i = 0 := by omega
          rw [this, h0]
        · simp [retryFetch, h0, h1]
        · intro hc
          rw [h1] at hc
          cases hc
      | none =>
        cases h2 : sel.fetchRes 2 with
        | some d =>
          refine ⟨2, by omega, ?_, ?_, ?_, ?_⟩
          · simp [retryFetch, h0, h1, h2, retryShape]
          · intro i hi
            interval_cases i
            · rw [h0]
            · rw [h1]
          · simp [retryFetch, h0, h1, h2]
          · intro _
            rfl
        | none =>
          refine ⟨2, by omega, ?_, ?_, ?_, ?_⟩
          · simp [retryFetch, h0, h1, h2, retryShape]
          · intro i hi
            interval_cases i
            · rw [h0]
            · rw [h1]
          · simp [retryFetch, h0, h1, h2]
          · intro _
            rfl
  · intro d evs h
    simp [fetchPhase, h]
  · intro h
    cases he : retryFetch sel with
    | mk res evs =>
      rw [he] at h
      simp only at h
      subst h
      simp [fetchPhase, he]
  · induction cat with
    | nil => rfl
    | cons t rest ih =>
      rw [tryAlts]
      by_cases hl : t.language_code == sel.language_code
      · rw [if_pos hl, List.filter_cons]
        have : (t.language_code != sel.language_code) = false := by
          simp only [bne]
          rw [hl]
          rfl
        rw [this]
        simpa using ih
      · rw [if_neg hl, List.filter_cons]
        have hne : (t.language_code != sel.language_code) = true := by
          simp only [bne]
          rw [Bool.eq_false_iff.mpr hl]
          rfl
        rw [hne]
        simp only [if_true]
        cases hf : t.fetchRes 0 with
        | some d =>
          rw [List.find?_cons_of_pos _ (by simp [hf])]
          simp [hf]
        | none =>
          rw [List.find?_cons_of_neg _ (by simp [hf])]
          simpa using ih
  · induction cat with
    | nil => rfl
    | cons t rest ih =>
      rw [tryAlts]
      by_cases hl : t.language_code == sel.language_code
      · rw [if_pos hl, List.filter_cons]
        have : (t.language_code != sel.language_code) = false := by
          simp only [bne]
          rw [hl]
          rfl
        rw [this]
        simpa using ih
      · rw [if_neg hl, List.filter_cons]
        have hne : (t.language_code != sel.language_code) = true := by
          simp only [bne]
          rw [Bool.eq_false_iff.mpr hl]
          rfl
        rw [hne]
        simp only [if_true]
        cases hf : t.fetchRes 0 with
        | some d =>
          rw [upToFirst, if_pos (by simp [hf])]
          simp [hf]
        | none =>
          rw [upToFirst, if_neg (by simp [hf])]
          simp only [List.map_cons]
          rw [← ih]

/-- Witness for C5: the selected English transcript fails all 3 attempts and
the French alternative succeeds on its single attempt, updating the recorded
language. -/
theorem C5_retry_and_cross_fallback_witness :
    retryFetch (⟨"en", false, fun _ => none⟩ : Transcript)
      = (none, [FetchEv.attemptFetch "en" false 0, FetchEv.sleepSec 1,
                FetchEv.attemptFetch "en" false 1, FetchEv.sleepSec 1,
                FetchEv.attemptFetch "en" false 2]) ∧
    fetchPhase [⟨"en", false, fun _ => none⟩, ⟨"fr", true, fun _ => some "bonjour"⟩]
        ⟨"en", false, fun _ => none⟩
      = (some ("bonjour", "fr"),
         [FetchEv.attemptFetch "en" false 0, FetchEv.sleepSec 1,
          FetchEv.attemptFetch "en" false 1, FetchEv.sleepSec 1,
          FetchEv.attemptFetch "en" false 2, FetchEv.attemptFetch "fr" true 0]) :=
  ⟨rfl,
   (C5_retry_and_cross_fallback
     [⟨"en", false, fun _ => none⟩, ⟨"fr", true, fun _ => some "bonjour"⟩]
     ⟨"en", false, fun _ => none⟩).2.2.1 rfl⟩

/-- ASCII members of Python's `str.strip()` whitespace set. -/
def pySpace (c : Char) : Bool :=
  c == ' ' || c == '\t' || c == '\n' || c == '\r' || c == '\x0b' || c == '\x0c'

/-- Python `str.strip()` over `List Char`. -/
def pyStrip (l : List Char) : List Char :=
  rstripBy pySpace (l.dropWhile pySpace)

/-- The operator's answer to the interactive no-transcript prompt
(`Confirm.ask` then `Prompt.ask`): decline, or supply manual text. -/
inductive OperatorChoice where
  | decline
  | supply (text : List Char)

/-- The result dict of `analyze_video`: an error analysis string, a rendered
prompt (`prompt_only`), or an LLM analysis; `titleOnly` records which of the
two prompt templates was used (the title-only one versus the
transcript-shaped one). -/
inductive AnalyzeOutcome where
  | errorResult (video_title : List Char) (msg : String)
  | promptResult (video_title : List Char) (titleOnly : Bool) (transcript_text : List Char)
  | analysisResult (video_title : List Char) (titleOnly : Bool)
deriving DecidableEq, Repr

def isPromptOutcome : AnalyzeOutcome → Bool
  | .promptResult .. => true
  | _ => false

/-- The placeholder transcript text set when the operator accepts the manual
prompt but supplies blank text (youtube_tools.py line 319). -/
def placeholderText (video_title video_url : List Char) : List Char :=
  "Video: ".toList ++ video_title ++ "\nURL: ".toList ++ video_url
    ++ "\nNote: No transcript available".toList

/-- `analyze_video` (youtube_tools.py lines 167-537): the transcript control
flow when the provider's transcript listing succeeds.  Strategies 1-3 select
a transcript (the no-transcripts error is returned when the catalog is
empty), the fetch phase runs the retries and the cross-transcript fallback,
and on total failure the interactive prompt asks the operator for manual
content — there is no non-interactive branch.  The formatting of fetched
entries into `MM:SS: text` lines is abstracted into the text carried by the
fetch oracle, and the two prompt templates are abstracted into the
`titleOnly` flag (chosen by the `has_actual_transcript` test of line 462)
together with the transcript text inserted into the template;
`llmOk = false` models an LLM invocation error. -/
def analyze_video (cat : List Transcript) (lang : String)
    (video_title video_url : List Char) (op : OperatorChoice)
    (prompt_only : Bool) (llmOk : Bool) : AnalyzeOutcome :=
  match selectTranscript lang cat with
  | none => .errorResult video_title "Error: No transcripts available for this video."
  | some sel =>
    let transcript_text : Option (List Char) :=
      match (fetchPhase cat sel).1 with
      | some (d, _) => some d.toList
      | none =>
        match op with
        | .decline => none
        | .supply txt =>
          if !(pyStrip txt).isEmpty then some (pyStrip txt)
          else some (placeholderText video_title video_url)
    match transcript_text with
    | none =>
      .errorResult video_title "Error: No transcript available and user declined manual input."
    | some tt =>
      if tt.isEmpty then
        .errorResult video_title "Error: No transcript data available for analysis."
      else
        let has_actual := !(List.isPrefixOf "Video:".toList tt)
          && !(containsSub "No transcript available".toList tt)
        if prompt_only then .promptResult video_title (!has_actual) tt
        else if llmOk then .analysisResult video_title (!has_actual)
        else .errorResult video_title "Error: Failed to generate AI analysis."

theorem option_or_eq_none {α : Type} {a b : Option α} :
    a.or b = none ↔ a = none ∧ b = none := by
  cases a <;> simp [Option.or]

theorem selectTranscript_ne_none (lang : String) {cat : List Transcript}
    (h : cat ≠ []) : ∃ t, selectTranscript lang cat = some t := by
  cases hs : selectTranscript lang cat with
  | some t => exact ⟨t, rfl⟩
  | none =>
    exfalso
    unfold selectTranscript at hs
    rw [option_or_eq_none] at hs
    obtain ⟨h1, h2⟩ := hs
    rw [option_or_eq_none] at h2
    have hh : cat.head? = none := h2.2
    cases cat with
    | nil => exact h rfl
    | cons a as => cases hh

theorem mem_of_selectTranscript {lang : String} {cat : List Transcript}
    {t : Transcript} (h : selectTranscript lang cat = some t) : t ∈ cat := by
  have hor : ∀ (a b : Option Transcript), a.or b = some t → a = some t ∨ b = some t := by
    intro a b hab
    cases a with
    | some x => exact Or.inl hab
    | none => exact Or.inr hab
  unfold selectTranscript find_transcript findManual findGenerated at h
  rcases hor _ _ h with h1 | h2
  · rcases hor _ _ h1 with h3 | h4
    · rcases hor _ _ h3 with h5 | h6
      · exact List.mem_of_find?_eq_some h5
      · exact List.mem_of_find?_eq_some h6
    · exact List.mem_of_find?_eq_some h4
  · rcases hor _ _ h2 with h3 | h4
    · split at h3
      · cases h3
      · rcases hor _ _ h3 with h5 | h6
        · rcases hor _ _ h5 with h7 | h8
          · exact List.mem_of_find?_eq_some h7
          · exact List.mem_of_find?_eq_some h8
        · exact List.mem_of_find?_eq_some h6
    · cases cat with
      | nil => cases h4
      | cons a as =>
        have ha : a = t := by
          rw [List.head?_cons] at h4
          exact Option.some.injEq _ _ ▸ h4
        exact ha ▸ List.mem_cons_self a as

theorem retryFetch_none_of_allFail {sel : Transcript} (h0 : sel.fetchRes 0 = none)
    (h1 : sel.fetchRes 1 = none) (h2 : sel.fetchRes 2 = none) :
    retryFetch sel = (none, retryShape sel 2) := by
  simp [retryFetch, h0, h1, h2, retryShape]

theorem tryAlts_none_of_allFail {s : String} {cat : List Transcript}
    (h : ∀ t ∈ cat, t.fetchRes 0 = none) : (tryAlts s cat).1 = none := by
  induction cat with
  | nil => rfl
  | cons t rest ih =>
    rw [tryAlts]
    by_cases hl : t.language_code == s
    · rw [if_pos hl]
      exact ih fun t' ht' => h t' (List.mem_cons_of_mem t ht')
    · rw [if_neg hl, h t (List.mem_cons_self t rest)]
      exact ih fun t' ht' => h t' (List.mem_cons_of_mem t ht')

theorem fetchPhase_none_of_allFail {cat : List Transcript} {sel : Transcript}
    (h0 : sel.fetchRes 0 = none) (h1 : sel.fetchRes 1 = none)
    (h2 : sel.fetchRes 2 = none) (hall : ∀ t ∈ cat, t.fetchRes 0 = none) :
    (fetchPhase cat sel).1 = none := by
  rw [fetchPhase, retryFetch_none_of_allFail h0 h1 h2]
  exact tryAlts_none_of_allFail hall

/-- C6 counterexample: for a video with no transcripts at all, `analyze_video`
returns the `"Error: No transcripts available"` result — not a title-only
prompt. -/
theorem C6_no_transcripts_yields_error :
    analyze_video [] "en" "T".toList "u".toList OperatorChoice.decline true true
      = AnalyzeOutcome.errorResult "T".toList
          "Error: No transcripts available for this video." ∧
    isPromptOutcome (analyze_video [] "en" "T".toList "u".toList
        OperatorChoice.decline true true) = false :=
  ⟨rfl, rfl⟩

/-- The template-selection rule of youtube_tools.py line 462: whenever
`analyze_video` renders a prompt, the title-only template is chosen exactly
when the transcript text starts with `"Video:"` or contains
`"No transcript available"` (the negation of `has_actual_transcript`). -/
theorem analyze_promptResult_titleOnly (cat : List Transcript) (lang : String)
    (title url : List Char) (op : OperatorChoice) (po llm : Bool)
    (b : Bool) (tt : List Char)
    (h : analyze_video cat lang title url op po llm
        = AnalyzeOutcome.promptResult title b tt) :
    b = (List.isPrefixOf "Video:".toList tt
      || containsSub "No transcript available".toList tt) := by
  unfold analyze_video at h
  repeat' split at h
  all_goals first
  | exact AnalyzeOutcome.noConfusion h
  | (injection h with ht hb htt
     subst hb
     subst htt
     simp [Bool.not_and, Bool.not_not])
  | (dsimp only at h
     split at h
     · exact AnalyzeOutcome.noConfusion h
     · first
       | exact AnalyzeOutcome.noConfusion h
       | (injection h with ht hb htt
          subst hb
          subst htt
          simp [Bool.not_and, Bool.not_not]))

/-- C6 (amended): when transcript acquisition is exhausted, `analyze_video`
returns an error result — the no-transcripts error on an empty catalog, the
user-declined error when the operator declines the interactive prompt (the
only degradation path; there is no non-interactive branch).  The title-only
prompt template is selected exactly when the transcript text starts with
`"Video:"` or contains `"No transcript available"`; in particular blank
manual input yields the placeholder text and hence a title-only prompt. -/
theorem C6_unavailable_paths (cat : List Transcript) (lang : String)
    (title url : List Char) (po llm : Bool)
    (hfail : ∀ t ∈ cat, ∀ k, t.fetchRes k = none) :
    (∀ op, analyze_video [] lang title url op po llm
        = AnalyzeOutcome.errorResult title
            "Error: No transcripts available for this video.") ∧
    (cat ≠ [] → analyze_video cat lang title url OperatorChoice.decline po llm
        = AnalyzeOutcome.errorResult title
            "Error: No transcript available and user declined manual input.") ∧
    (cat ≠ [] → analyze_video cat lang title url (OperatorChoice.supply []) true llm
        = AnalyzeOutcome.promptResult title true (placeholderText title url)) ∧
    (∀ op b tt, analyze_video cat lang title url op po llm
        = AnalyzeOutcome.promptResult title b tt →
      b = (List.isPrefixOf "Video:".toList tt
        || containsSub "No transcript available".toList tt)) := by
  have hselnil : selectTranscript lang ([] : List Transcript) = none := by
    unfold selectTranscript find_transcript findManual findGenerated
    simp only [List.find?_nil, List.head?_nil, option_none_or]
    split <;> rfl
  refine ⟨fun op => by simp [analyze_video, hselnil], ?_, ?_,
    fun op b tt h => analyze_promptResult_titleOnly cat lang title url op po llm b tt h⟩
  · intro hne
    obtain ⟨sel, hs⟩ := selectTranscript_ne_none lang hne
    have hmem := mem_of_selectTranscript hs
    have hfp : (fetchPhase cat sel).1 = none :=
      fetchPhase_none_of_allFail (hfail sel hmem 0) (hfail sel hmem 1)
        (hfail sel hmem 2) (fun t ht => hfail t ht 0)
    simp [analyze_video, hs, hfp]
  · intro hne
    obtain ⟨sel, hs⟩ := selectTranscript_ne_none lang hne
    have hmem := mem_of_selectTranscript hs
    have hfp : (fetchPhase cat sel).1 = none :=
      fetchPhase_none_of_allFail (hfail sel hmem 0) (hfail sel hmem 1)
        (hfail sel hmem 2) (fun t ht => hfail t ht 0)
    have hpe : (placeholderText title url).isEmpty = false := rfl
    have hpv : List.isPrefixOf "Video:".toList (placeholderText title url) = true := rfl
    simp [analyze_video, hs, hfp, hpe, hpv, pyStrip, rstripBy]
    exact Or.inl (List.isPrefixOf_iff_prefix.mp hpv)

/-- Witness for C6 with a one-transcript catalog whose fetches all fail. -/
theorem C6_unavailable_paths_witness :
    analyze_video [⟨"en", false, fun _ => none⟩] "en" "T".toList "u".toList
        OperatorChoice.decline true true
      = AnalyzeOutcome.errorResult "T".toList
          "Error: No transcript available and user declined manual input." ∧
    analyze_video [⟨"en", false, fun _ => none⟩] "en" "T".toList "u".toList
        (OperatorChoice.supply []) true true
      = AnalyzeOutcome.promptResult "T".toList true
          (placeholderText "T".toList "u".toList) ∧
    true = (List.isPrefixOf "Video:".toList (placeholderText "T".toList "u".toList)
      || containsSub "No transcript available".toList
          (placeholderText "T".toList "u".toList)) := by
  have hf : ∀ t ∈ [(⟨"en", false, fun _ => none⟩ : Transcript)],
      ∀ k, t.fetchRes k = none := by
    intro t ht k
    rw [List.mem_singleton] at ht
    subst ht
    rfl
  have h := C6_unavailable_paths _ "en" "T".toList "u".toList true true hf
  have hp := h.2.2.1 (List.cons_ne_nil _ _)
  exact ⟨h.2.1 (List.cons_ne_nil _ _), hp, h.2.2.2 _ _ _ hp⟩

/-- Outcome of the title lookup environment: the API returns a title, the
API call fails inside `get_video_title`'s try block, or `get_video_title`
raises before it (missing `YOUTUBE_API_KEY`). -/
inductive TitleLookup where
  | found (title : List Char)
  | apiError (msg : String)
  | missingKey

/-- `get_video_title` from `youtube_utils.py` (lines 104-118): raises when
the API key is missing; otherwise catches any API failure and returns the
placeholder `"Untitled Video"`. -/
def get_video_title : TitleLookup → Except String (List Char)
  | .found t => .ok t
  | .apiError _ => .ok "Untitled Video".toList
  | .missingKey => .error "Missing YOUTUBE_API_KEY environment variable"

/-- The title-resolution step of `analyze_video` (youtube_tools.py lines
182-199): `video_title` starts as `"Unknown Title"` and any exception from
`get_video_title` is caught, keeping that placeholder. -/
def resolveTitle (lk : TitleLookup) : List Char :=
  match get_video_title lk with
  | .ok t => t
  | .error _ => "Unknown Title".toList

def outcomeTitle : AnalyzeOutcome → List Char
  | .errorResult t _ => t
  | .promptResult t _ _ => t
  | .analysisResult t _ => t

theorem outcomeTitle_analyze (cat : List Transcript) (lang : String)
    (title url : List Char) (op : OperatorChoice) (po llm : Bool) :
    outcomeTitle (analyze_video cat lang title url op po llm) = title := by
  unfold analyze_video
  repeat' split
  all_goals first
  | rfl
  | (dsimp only
     split <;> rfl)

/-- C7 counterexample: when the metadata provider's API call fails, the
placeholder is `"Untitled Video"`, not `"Unknown Title"`. -/
theorem C7_api_failure_gives_untitled_video :
    resolveTitle (TitleLookup.apiError "HTTP error") = "Untitled Video".toList ∧
    resolveTitle (TitleLookup.apiError "HTTP error") ≠ "Unknown Title".toList :=
  ⟨rfl, by decide⟩

/-- C7 (amended): a failing title lookup never blocks analysis — the
analysis continues with a placeholder title: `"Untitled Video"` when the
provider call fails inside `get_video_title`, `"Unknown Title"` when
`get_video_title` itself raises (missing API key) — and the analysis
outcome always carries the resolved title, whatever the lookup did. -/
theorem C7_title_lookup_placeholder :
    (∀ m, resolveTitle (TitleLookup.apiError m) = "Untitled Video".toList) ∧
    resolveTitle TitleLookup.missingKey = "Unknown Title".toList ∧
    (∀ t, resolveTitle (TitleLookup.found t) = t) ∧
    (∀ lk cat lang url op po llm,
      outcomeTitle (analyze_video cat lang (resolveTitle lk) url op po llm)
        = resolveTitle lk) :=
  ⟨fun _ => rfl, rfl, fun _ => rfl,
   fun lk cat lang url op po llm =>
     outcomeTitle_analyze cat lang (resolveTitle lk) url op po llm⟩

/-- Witness for C7 at concrete lookups and a concrete analysis run. -/
theorem C7_title_lookup_placeholder_witness :
    resolveTitle (TitleLookup.apiError "HTTP 403") = "Untitled Video".toList ∧
    resolveTitle TitleLookup.missingKey = "Unknown Title".toList ∧
    resolveTitle (TitleLookup.found "My Talk".toList) = "My Talk".toList ∧
    outcomeTitle (analyze_video [] "en" (resolveTitle (TitleLookup.apiError "HTTP 403"))
        "u".toList OperatorChoice.decline true true)
      = resolveTitle (TitleLookup.apiError "HTTP 403") :=
  ⟨C7_title_lookup_placeholder.1 "HTTP 403",
   C7_title_lookup_placeholder.2.1,
   C7_title_lookup_placeholder.2.2.1 "My Talk".toList,
   C7_title_lookup_placeholder.2.2.2 (TitleLookup.apiError "HTTP 403") [] "en"
     "u".toList OperatorChoice.decline true true⟩
